import Mathlib

/-!
Verification development for the controllable-space-ship-rendering demo.

The JavaScript sources are shallowly embedded here over the real numbers:

* `src/src/js/CompoundObject.js` — the spherical-coordinate `move` of the
  compound spaceship (`#applyRotation`, `move`, `_MOVE_STEP = 3`);
* the earlier translation-based `CompoundObject.move` (unnamed part_001,
  `__MOVE_STEP = 20`);
* the `Main` class of unnamed part_003 — `#checkCollision`, `#update`,
  `animate`, and the `raioCol` collision radii assigned in `#buildScene`.

JavaScript numbers are modelled as real numbers, and mutation of the
`position` fields is modelled by explicit state passing.
-/

namespace SpaceDemo

/-- A 3D position with real coordinates (models a THREE.js `position`). -/
@[ext]
structure Vec3 where
  x : ℝ
  y : ℝ
  z : ℝ

/-- Modelled from the spec: the `Direction` enum lives in the key-controller
file, which is not among the sources; `CompoundObject.move` switches over
exactly the four members `UP`, `DOWN`, `LEFT`, `RIGHT`. -/
inductive Direction
  | UP
  | DOWN
  | LEFT
  | RIGHT

/-- JS `Math.atan2(y, x)`: the angle of the point `(x, y)`, i.e. the complex
argument of `x + y*I`, lying in `(-pi, pi]`. -/
noncomputable def atan2 (y x : ℝ) : ℝ := Complex.arg ⟨x, y⟩

/-- The clamping `Math.max(-1, Math.min(1, v))` used on the `acos` argument in
`CompoundObject.move` (line 95). -/
noncomputable def clampUnit (v : ℝ) : ℝ := max (-1) (min 1 v)

/-- `_MOVE_STEP` from `src/src/js/CompoundObject.js` (line 115). -/
def MOVE_STEP : ℝ := 3

/-- `#applyRotation(radius, theta, phi)` from `src/src/js/CompoundObject.js`
(lines 74-81): sets the primary position from the spherical angles:
`x = sin(phi) * radius * sin(theta)`, `z = sin(phi) * radius * cos(theta)`,
`y = cos(phi) * radius`. -/
noncomputable def applyRotation (radius theta phi : ℝ) : Vec3 :=
  { x := Real.sin phi * radius * Real.sin theta
    z := Real.sin phi * radius * Real.cos theta
    y := Real.cos phi * radius }

/-- `theta = Math.atan2(x, z)` computed from the primary position in
`CompoundObject.move` (line 94). -/
noncomputable def thetaOf (p : Vec3) : ℝ := atan2 p.x p.z

/-- `phi = Math.acos(Math.max(-1, Math.min(1, y / radius)))` computed from the
primary position in `CompoundObject.move` (line 95). -/
noncomputable def phiOf (p : Vec3) (radius : ℝ) : ℝ :=
  Real.arccos (clampUnit (p.y / radius))

/-- `CompoundObject.move(direction, delta, radius)` from
`src/src/js/CompoundObject.js` (lines 90-111), acting on the primary
position: recompute `theta` and `phi` from the current position, offset one
of them by `_MOVE_STEP * delta` according to the direction, and reproject
through `#applyRotation`. -/
noncomputable def move (dir : Direction) (delta radius : ℝ) (p : Vec3) : Vec3 :=
  let theta := thetaOf p
  let phi := phiOf p radius
  match dir with
  | .UP => applyRotation radius theta (phi + MOVE_STEP * delta)
  | .DOWN => applyRotation radius theta (phi - MOVE_STEP * delta)
  | .LEFT => applyRotation radius (theta + MOVE_STEP * delta) phi
  | .RIGHT => applyRotation radius (theta - MOVE_STEP * delta) phi

/-- Written from the words of claim C4 (not from the code, to be compared
with `move`): recover `theta = atan2(x, z)` and
`phi = acos(clamp(y / radius, -1, 1))` from the current position, offset
`phi` by plus/minus `MOVE_STEP * delta` for UP/DOWN and `theta` by
plus/minus `MOVE_STEP * delta` for LEFT/RIGHT, and set the position to
`x = radius * sin(phi) * sin(theta)`, `z = radius * sin(phi) * cos(theta)`,
`y = radius * cos(phi)`. -/
noncomputable def moveSpec (dir : Direction) (delta radius : ℝ) (p : Vec3) : Vec3 :=
  let theta := atan2 p.x p.z
  let phi := Real.arccos (max (-1) (min 1 (p.y / radius)))
  let angles : ℝ × ℝ :=
    match dir with
    | .UP => (theta, phi + MOVE_STEP * delta)
    | .DOWN => (theta, phi - MOVE_STEP * delta)
    | .LEFT => (theta + MOVE_STEP * delta, phi)
    | .RIGHT => (theta - MOVE_STEP * delta, phi)
  { x := radius * Real.sin angles.2 * Real.sin angles.1
    y := radius * Real.cos angles.2
    z := radius * Real.sin angles.2 * Real.cos angles.1 }

/-- `__MOVE_STEP` from the translation-based `CompoundObject` (unnamed
part_001, line 92). -/
def MOVE_STEP20 : ℝ := 20

/-- `CompoundObject.move(direction, delta)` from unnamed part_001 (lines
73-88), acting on the group position: a translation by `__MOVE_STEP * delta`
along one axis. -/
noncomputable def moveGroup (dir : Direction) (delta : ℝ) (p : Vec3) : Vec3 :=
  match dir with
  | .UP => { p with y := p.y + MOVE_STEP20 * delta }
  | .DOWN => { p with y := p.y - MOVE_STEP20 * delta }
  | .LEFT => { p with x := p.x - MOVE_STEP20 * delta }
  | .RIGHT => { p with x := p.x + MOVE_STEP20 * delta }

/-- The effect of `move` on the primary position for LEFT/RIGHT, as a
function of the signed angular step: `applyRotation` at `theta + s` with
`phi` unchanged. -/
noncomputable def yaw (radius s : ℝ) (p : Vec3) : Vec3 :=
  applyRotation radius (thetaOf p + s) (phiOf p radius)

/-- A THREE.js mesh as the collision code sees it: an identity (`id`, modelling
JavaScript object identity, by which `scene.remove` and `litter` entries refer
to the same mesh), a `position`, and the `raioCol` collision radius attached in
`#buildScene`. -/
structure Obj where
  id : Nat
  pos : Vec3
  raioCol : ℝ

/-- `this.#compound.raioCol = 5.52` from `#buildScene` (unnamed part_003,
line 404). -/
noncomputable def compound_raioCol : ℝ := 5.52

open Classical in
/-- The distance computed in `#checkCollision` (unnamed part_003, lines
428-435): absolute coordinate differences, then `sqrt` of the sum of their
squares, with `distance` left at `0` when all three differences are zero. -/
noncomputable def collisionDistance (p1 p2 : Vec3) : ℝ :=
  let x := |p1.x - p2.x|
  let y := |p1.y - p2.y|
  let z := |p1.z - p2.z|
  if x ≠ 0 ∨ y ≠ 0 ∨ z ≠ 0 then Real.sqrt (x * x + y * y + z * z) else 0

/-- The Euclidean distance between two positions, written from the words of
claim C2 for comparison with the code's `collisionDistance`. -/
noncomputable def euclideanDist (p1 p2 : Vec3) : ℝ :=
  Real.sqrt ((p1.x - p2.x) ^ 2 + (p1.y - p2.y) ^ 2 + (p1.z - p2.z) ^ 2)

/-- The threshold against which `#checkCollision` compares the distance for
litter item `it` (unnamed part_003, line 438):
`litter[i].raioCol + compound.raioCol`. -/
noncomputable def collisionThreshold (it : Obj) : ℝ := it.raioCol + compound_raioCol

/-- The removal condition of `#checkCollision` (line 438):
`distance <= litter[i].raioCol + compound.raioCol`. -/
def collides (ppos : Vec3) (it : Obj) : Prop :=
  collisionDistance it.pos ppos ≤ collisionThreshold it

/-- `scene.remove(obj)` (line 439): THREE.js removes `obj` from the scene's
children by identity, deleting the (single) occurrence with that identity. -/
def sceneRemove (scene : List Obj) (target : Nat) : List Obj :=
  scene.eraseP (fun o => o.id == target)

/-- JS `Array.prototype.slice(start, end)`: returns a fresh copy of the
elements from `start` (inclusive) to `end` (exclusive); it does not mutate
the receiver. `#checkCollision` (line 441) calls it as `litter.slice(i, 1)`
and discards the result. -/
def jsSlice (l : List Obj) (start stop : Nat) : List Obj :=
  (l.take stop).drop start

/-- Instrumentation events recording what a frame does, in order: one
`compare` per litter item visited by `#checkCollision` (with the threshold
used), then the key-input processing, the primary `lookAt`, and the render
issued by `#display`. -/
inductive Event
  | compare (id : Nat) (threshold : ℝ)
  | keyProcess
  | lookAt
  | render

/-- The mutable state touched by `Main`'s frame loop: the `#litter` array,
the scene children, the compound primary's position, and the instrumentation
trace. -/
structure SimState where
  litter : List Obj
  scene : List Obj
  primaryPos : Vec3
  trace : List Event

open Classical in
/-- The body of one iteration of the `#checkCollision` loop (unnamed
part_003, lines 419-442) for litter item `item` at loop index `i`: compare
the distance between `item` and the compound primary against
`item.raioCol + compound.raioCol` (logged as a `compare` event); on a hit,
`scene.remove(item)` and evaluate `litter.slice(i, 1)`, whose result the
code discards (so `litter` itself is never written). -/
noncomputable def checkBody (i : Nat) (st : SimState) (item : Obj) : SimState :=
  let st1 : SimState :=
    { st with trace := st.trace ++ [Event.compare item.id (collisionThreshold item)] }
  if collides st1.primaryPos item then
    let _discarded := jsSlice st1.litter i 1
    { st1 with scene := sceneRemove st1.scene item.id }
  else st1

/-- The `for` loop of `#checkCollision` (unnamed part_003, lines 417-443):
run `checkBody` on `litter[i]` while `i < litter.length`, incrementing
`i`. -/
noncomputable def checkLoop (i : Nat) (st : SimState) : SimState :=
  if h : i < st.litter.length then checkLoop (i + 1) (checkBody i st st.litter[i])
  else st
termination_by st.litter.length - i
decreasing_by
  simp only [checkBody]
  split <;> simp <;> omega

/-- `#checkCollision` (unnamed part_003, lines 415-444): the loop started at
index `0`. -/
noncomputable def checkCollision (st : SimState) : SimState := checkLoop 0 st

open Classical in
/-- The effect of one `#checkCollision` iteration on the scene alone:
remove the item when it collides, leave the scene unchanged otherwise. -/
noncomputable def collideStep (ppos : Vec3) (sc : List Obj) (it : Obj) : List Obj :=
  if collides ppos it then sceneRemove sc it.id else sc

/-- `#update` (unnamed part_003, lines 458-471): obtain the clock delta, run
`#checkCollision`, delegate to `processKeyPressed` (the key controller is
outside the sources; it is abstracted as `keyProc`), then point the primary
at the origin via `lookAt` (which sets orientation only; position is
untouched, so the model merely logs it). -/
noncomputable def update (keyProc : ℝ → SimState → SimState) (delta : ℝ)
    (st : SimState) : SimState :=
  let st1 := checkCollision st
  let st2 := { st1 with trace := st1.trace ++ [Event.keyProcess] }
  let st3 := keyProc delta st2
  { st3 with trace := st3.trace ++ [Event.lookAt] }

/-- `#display` (lines 449-452): renders the scene; no scene state changes,
logged as a `render` event. -/
noncomputable def display (st : SimState) : SimState :=
  { st with trace := st.trace ++ [Event.render] }

/-- `animate` (lines 477-486): one frame is `#update` followed by
`#display`. -/
noncomputable def animate (keyProc : ℝ → SimState → SimState) (delta : ℝ)
    (st : SimState) : SimState :=
  display (update keyProc delta st)

/-- A debris item sitting exactly at the origin with collision radius 1,
used as concrete input for witnesses. -/
noncomputable def demoItem : Obj := ⟨1, ⟨0, 0, 0⟩, 1⟩

/-- A concrete frame state whose litter and scene are the single `demoItem`
and whose compound primary sits at the origin. -/
noncomputable def demoState : SimState := ⟨[demoItem], [demoItem], ⟨0, 0, 0⟩, []⟩

/-- A cube debris item with the `raioCol` `#buildScene` gives cubes (unnamed
part_003, line 232): with `_EARTH_RADIUS = 70`, `min = ceil(70/24) = 3` and
`max = floor(70/20) = 3`, so `size = floor(random() * 0) + 3 = 3` and
`raioCol = (sqrt(3)/2) * 3`. -/
noncomputable def demoCube : Obj := ⟨0, ⟨0, 0, 84⟩, Real.sqrt 3 / 2 * 3⟩

/-- A cylinder debris item with the `raioCol` `#buildScene` gives cylinders
(unnamed part_003, line 250): `height = 3`, `radius = 3/2`, so
`raioCol = sqrt(radius^2 + (height/2)^2) = sqrt((3/2)^2 + (3/2)^2)`. -/
noncomputable def demoCylinder : Obj :=
  ⟨1, ⟨84, 0, 0⟩, Real.sqrt ((3 / 2) ^ 2 + (3 / 2) ^ 2)⟩

/-- A concrete frame state whose litter is a cube and a cylinder as built by
`#buildScene`. -/
noncomputable def demoScanState : SimState :=
  ⟨[demoCube, demoCylinder], [demoCube, demoCylinder], ⟨0, 0, 0⟩, []⟩

/-! Helper lemmas. -/

lemma applyRotation_on_sphere (radius theta phi : ℝ) :
    (applyRotation radius theta phi).x ^ 2 + (applyRotation radius theta phi).y ^ 2 +
      (applyRotation radius theta phi).z ^ 2 = radius ^ 2 := by
  have hθ := Real.sin_sq_add_cos_sq theta
  have hφ := Real.sin_sq_add_cos_sq phi
  simp only [applyRotation]
  linear_combination (radius ^ 2 * Real.sin phi ^ 2) * hθ + radius ^ 2 * hφ

lemma abs_complex_mk (x y : ℝ) : Complex.abs ⟨x, y⟩ = Real.sqrt (x ^ 2 + y ^ 2) := by
  rw [Complex.abs_apply, Complex.normSq_mk]
  ring_nf

lemma sin_atan2 (y x : ℝ) : Real.sin (atan2 y x) = y / Real.sqrt (x ^ 2 + y ^ 2) := by
  rw [atan2, Complex.sin_arg, abs_complex_mk]

lemma cos_atan2 (y x : ℝ) (h : ¬(x = 0 ∧ y = 0)) :
    Real.cos (atan2 y x) = x / Real.sqrt (x ^ 2 + y ^ 2) := by
  rw [atan2, Complex.cos_arg, abs_complex_mk]
  intro h0
  exact h ⟨congrArg Complex.re h0, congrArg Complex.im h0⟩

lemma clampUnit_of_mem {v : ℝ} (h1 : -1 ≤ v) (h2 : v ≤ 1) : clampUnit v = v := by
  rw [clampUnit, min_eq_right h2, max_eq_right h1]

lemma move_LEFT_eq_yaw (delta radius : ℝ) (p : Vec3) :
    move .LEFT delta radius p = yaw radius (MOVE_STEP * delta) p := rfl

lemma move_RIGHT_eq_yaw (delta radius : ℝ) (p : Vec3) :
    move .RIGHT delta radius p = yaw radius (-(MOVE_STEP * delta)) p := by
  simp only [move, yaw, sub_eq_add_neg]

lemma div_bounds_of_sphere {radius : ℝ} {p : Vec3} (hr : 0 < radius)
    (hp : p.x ^ 2 + p.y ^ 2 + p.z ^ 2 = radius ^ 2) :
    -1 ≤ p.y / radius ∧ p.y / radius ≤ 1 := by
  constructor
  · rw [le_div_iff₀ hr]
    nlinarith [sq_nonneg p.x, sq_nonneg p.z, sq_nonneg (p.y + radius)]
  · rw [div_le_one hr]
    nlinarith [sq_nonneg p.x, sq_nonneg p.z, sq_nonneg (p.y - radius)]

lemma cos_phiOf_of_sphere {radius : ℝ} {p : Vec3} (hr : 0 < radius)
    (hp : p.x ^ 2 + p.y ^ 2 + p.z ^ 2 = radius ^ 2) :
    Real.cos (phiOf p radius) * radius = p.y := by
  obtain ⟨h1, h2⟩ := div_bounds_of_sphere hr hp
  rw [phiOf, clampUnit_of_mem h1 h2, Real.cos_arccos h1 h2]
  field_simp

lemma sin_phiOf_of_sphere {radius : ℝ} {p : Vec3} (hr : 0 < radius)
    (hp : p.x ^ 2 + p.y ^ 2 + p.z ^ 2 = radius ^ 2) :
    Real.sin (phiOf p radius) * radius = Real.sqrt (p.x ^ 2 + p.z ^ 2) := by
  obtain ⟨h1, h2⟩ := div_bounds_of_sphere hr hp
  have hrne : radius ≠ 0 := ne_of_gt hr
  have harg : (1 : ℝ) - (p.y / radius) ^ 2 = (p.x ^ 2 + p.z ^ 2) / radius ^ 2 := by
    field_simp
    linarith [hp]
  rw [phiOf, clampUnit_of_mem h1 h2, Real.sin_arccos, harg,
    Real.sqrt_div (by positivity) (radius ^ 2), Real.sqrt_sq hr.le]
  field_simp

lemma yaw_neg_yaw {radius : ℝ} {p : Vec3} (hr : 0 < radius)
    (hp : p.x ^ 2 + p.y ^ 2 + p.z ^ 2 = radius ^ 2) (s : ℝ) :
    yaw radius (-s) (yaw radius s p) = p := by
  have hrne : radius ≠ 0 := ne_of_gt hr
  set θ := thetaOf p with hθdef
  set φ := phiOf p radius with hφdef
  set R2 := Real.sqrt (p.x ^ 2 + p.z ^ 2) with hR2def
  have hsinφ : Real.sin φ * radius = R2 := sin_phiOf_of_sphere hr hp
  have hcosφ : Real.cos φ * radius = p.y := cos_phiOf_of_sphere hr hp
  have hq : yaw radius s p = ⟨R2 * Real.sin (θ + s), p.y, R2 * Real.cos (θ + s)⟩ := by
    refine Vec3.ext ?_ ?_ ?_
    · show Real.sin φ * radius * Real.sin (θ + s) = R2 * Real.sin (θ + s)
      rw [hsinφ]
    · show Real.cos φ * radius = p.y
      exact hcosφ
    · show Real.sin φ * radius * Real.cos (θ + s) = R2 * Real.cos (θ + s)
      rw [hsinφ]
  have hφq : phiOf (yaw radius s p) radius = φ := by
    rw [hq]
    rfl
  rw [yaw, hφq, hq]
  have hR2nn : 0 ≤ R2 := Real.sqrt_nonneg _
  by_cases hR2 : R2 = 0
  · have hxz : p.x = 0 ∧ p.z = 0 := by
      rw [hR2def, Real.sqrt_eq_zero'] at hR2
      constructor <;> nlinarith [sq_nonneg p.x, sq_nonneg p.z]
    refine Vec3.ext ?_ ?_ ?_
    · show Real.sin φ * radius * _ = p.x
      rw [hsinφ, hR2, hxz.1, zero_mul]
    · show Real.cos φ * radius = p.y
      exact hcosφ
    · show Real.sin φ * radius * _ = p.z
      rw [hsinφ, hR2, hxz.2, zero_mul]
  · have hR2pos : 0 < R2 := lt_of_le_of_ne hR2nn (Ne.symm hR2)
    have hnorm : Real.sqrt ((R2 * Real.cos (θ + s)) ^ 2 + (R2 * Real.sin (θ + s)) ^ 2) = R2 := by
      have h1 : (R2 * Real.cos (θ + s)) ^ 2 + (R2 * Real.sin (θ + s)) ^ 2 = R2 ^ 2 := by
        linear_combination R2 ^ 2 * Real.sin_sq_add_cos_sq (θ + s)
      rw [h1, Real.sqrt_sq hR2nn]
    have hθq : thetaOf (Vec3.mk (R2 * Real.sin (θ + s)) p.y (R2 * Real.cos (θ + s))) =
        atan2 (R2 * Real.sin (θ + s)) (R2 * Real.cos (θ + s)) := rfl
    have hsinθq : Real.sin (atan2 (R2 * Real.sin (θ + s)) (R2 * Real.cos (θ + s))) =
        Real.sin (θ + s) := by
      rw [sin_atan2, hnorm]
      field_simp
    have hcosθq : Real.cos (atan2 (R2 * Real.sin (θ + s)) (R2 * Real.cos (θ + s))) =
        Real.cos (θ + s) := by
      rw [cos_atan2, hnorm]
      · field_simp
      · rintro ⟨hc, hs'⟩
        have hc0 : Real.cos (θ + s) = 0 := by
          rcases mul_eq_zero.mp hc with h | h
          · exact absurd h hR2
          · exact h
        have hs0 : Real.sin (θ + s) = 0 := by
          rcases mul_eq_zero.mp hs' with h | h
          · exact absurd h hR2
          · exact h
        have := Real.sin_sq_add_cos_sq (θ + s)
        rw [hc0, hs0] at this
        norm_num at this
    have hsin_back : Real.sin (atan2 (R2 * Real.sin (θ + s)) (R2 * Real.cos (θ + s)) + -s) =
        Real.sin θ := by
      rw [← sub_eq_add_neg, Real.sin_sub, hsinθq, hcosθq, ← Real.sin_sub, add_sub_cancel_right]
    have hcos_back : Real.cos (atan2 (R2 * Real.sin (θ + s)) (R2 * Real.cos (θ + s)) + -s) =
        Real.cos θ := by
      rw [← sub_eq_add_neg, Real.cos_sub, hcosθq, hsinθq, ← Real.cos_sub, add_sub_cancel_right]
    have hswap : Real.sqrt (p.z ^ 2 + p.x ^ 2) = R2 := by
      rw [hR2def]
      congr 1
      ring
    have hxz : ¬(p.z = 0 ∧ p.x = 0) := by
      rintro ⟨hz, hx⟩
      rw [hR2def, hx, hz] at hR2pos
      norm_num at hR2pos
    refine Vec3.ext ?_ ?_ ?_
    · show Real.sin φ * radius * Real.sin (thetaOf _ + -s) = p.x
      rw [hsinφ, hθq, hsin_back, hθdef, thetaOf, sin_atan2, hswap]
      field_simp
    · show Real.cos φ * radius = p.y
      exact hcosφ
    · show Real.sin φ * radius * Real.cos (thetaOf _ + -s) = p.z
      rw [hsinφ, hθq, hcos_back, hθdef, thetaOf, cos_atan2 _ _ hxz, hswap]
      field_simp

lemma collisionDistance_eq_euclideanDist (p1 p2 : Vec3) :
    collisionDistance p1 p2 = euclideanDist p1 p2 := by
  rw [collisionDistance, euclideanDist]
  split
  · congr 1
    rw [abs_mul_abs_self, abs_mul_abs_self, abs_mul_abs_self]
    ring
  · rename_i h
    push_neg at h
    obtain ⟨hx, hy, hz⟩ := h
    rw [abs_eq_zero] at hx hy hz
    rw [hx, hy, hz]
    simp

lemma checkBody_spec (i : Nat) (st : SimState) (item : Obj) :
    checkBody i st item =
      { st with
          trace := st.trace ++ [Event.compare item.id (collisionThreshold item)],
          scene := collideStep st.primaryPos st.scene item } := by
  simp only [checkBody, collideStep]
  by_cases h : collides st.primaryPos item <;> simp [h]

lemma checkLoop_spec (i : Nat) (st : SimState) :
    checkLoop i st =
      { st with
          trace := st.trace ++ (st.litter.drop i).map
            (fun it => Event.compare it.id (collisionThreshold it)),
          scene := (st.litter.drop i).foldl (collideStep st.primaryPos) st.scene } := by
  induction i, st using checkLoop.induct with
  | case1 i st h ih =>
    rw [checkLoop, dif_pos h, ih, checkBody_spec]
    have hdrop : st.litter.drop i = st.litter[i] :: st.litter.drop (i + 1) :=
      List.drop_eq_getElem_cons h
    dsimp only
    rw [hdrop, List.map_cons, List.foldl_cons, List.append_assoc, List.singleton_append]
  | case2 i st h =>
    rw [checkLoop, dif_neg h]
    rw [List.drop_eq_nil_of_le (Nat.le_of_not_lt h)]
    simp

lemma checkCollision_litter (st : SimState) : (checkCollision st).litter = st.litter := by
  rw [checkCollision, checkLoop_spec]

lemma checkCollision_primaryPos (st : SimState) :
    (checkCollision st).primaryPos = st.primaryPos := by
  rw [checkCollision, checkLoop_spec]

lemma checkCollision_trace (st : SimState) :
    (checkCollision st).trace =
      st.trace ++ st.litter.map (fun it => Event.compare it.id (collisionThreshold it)) := by
  rw [checkCollision, checkLoop_spec]
  simp

lemma checkCollision_scene (st : SimState) :
    (checkCollision st).scene = st.litter.foldl (collideStep st.primaryPos) st.scene := by
  rw [checkCollision, checkLoop_spec]
  simp

lemma mem_sceneRemove_of_ne {o : Obj} {sc : List Obj} (ho : o ∈ sc) {tid : Nat}
    (h : o.id ≠ tid) : o ∈ sceneRemove sc tid := by
  induction sc with
  | nil => cases ho
  | cons a l ih =>
    rw [sceneRemove, List.eraseP_cons]
    rcases List.mem_cons.mp ho with rfl | hl
    · have : (o.id == tid) = false := by
        simpa using h
      rw [this]
      exact List.mem_cons_self _ _
    · cases hpa : (a.id == tid)
      · simpa using Or.inr (ih hl)
      · simpa using hl

lemma mem_sceneRemove_iff {sc : List Obj} (hnd : (sc.map Obj.id).Nodup) {o : Obj}
    {tid : Nat} : o ∈ sceneRemove sc tid ↔ o ∈ sc ∧ o.id ≠ tid := by
  induction sc with
  | nil => simp [sceneRemove]
  | cons a l ih =>
    rw [List.map_cons, List.nodup_cons] at hnd
    rw [sceneRemove, List.eraseP_cons]
    cases hpa : (a.id == tid)
    · have hane : a.id ≠ tid := by
        simpa using hpa
      rw [cond_false, List.mem_cons, List.mem_cons]
      rw [sceneRemove] at ih
      rw [ih hnd.2]
      constructor
      · rintro (rfl | ⟨hol, hone⟩)
        · exact ⟨Or.inl rfl, hane⟩
        · exact ⟨Or.inr hol, hone⟩
      · rintro ⟨rfl | hol, hone⟩
        · exact Or.inl rfl
        · exact Or.inr ⟨hol, hone⟩
    · have haeq : a.id = tid := by
        simpa using hpa
      rw [cond_true, List.mem_cons]
      constructor
      · intro hol
        refine ⟨Or.inr hol, ?_⟩
        intro hoeq
        have hmem : o.id ∈ List.map Obj.id l := List.mem_map_of_mem Obj.id hol
        rw [hoeq, ← haeq] at hmem
        exact hnd.1 hmem
      · rintro ⟨rfl | hol, hone⟩
        · exact absurd haeq hone
        · exact hol

lemma sceneRemove_id_nodup {sc : List Obj} (hnd : (sc.map Obj.id).Nodup) (tid : Nat) :
    ((sceneRemove sc tid).map Obj.id).Nodup :=
  List.Nodup.sublist (List.Sublist.map Obj.id (List.eraseP_sublist sc)) hnd

lemma foldl_collideStep_sublist (ppos : Vec3) (litter : List Obj) :
    ∀ scene : List Obj, (litter.foldl (collideStep ppos) scene).Sublist scene := by
  induction litter with
  | nil =>
    intro scene
    exact List.Sublist.refl scene
  | cons it rest ih =>
    intro scene
    rw [List.foldl_cons]
    refine (ih _).trans ?_
    rw [collideStep]
    split
    · exact List.eraseP_sublist scene
    · exact List.Sublist.refl scene

lemma mem_foldl_collideStep (ppos : Vec3) (litter : List Obj) :
    ∀ scene : List Obj, (scene.map Obj.id).Nodup → ∀ o : Obj,
      (o ∈ litter.foldl (collideStep ppos) scene ↔
        o ∈ scene ∧ ∀ it ∈ litter, it.id = o.id → ¬ collides ppos it) := by
  induction litter with
  | nil =>
    intro scene hnd o
    simp
  | cons it rest ih =>
    intro scene hnd o
    rw [List.foldl_cons]
    have hnd' : ((collideStep ppos scene it).map Obj.id).Nodup := by
      rw [collideStep]
      split
      · exact sceneRemove_id_nodup hnd _
      · exact hnd
    rw [ih _ hnd' o, List.forall_mem_cons]
    by_cases hc : collides ppos it
    · rw [collideStep, if_pos hc, mem_sceneRemove_iff hnd]
      constructor
      · rintro ⟨⟨ho, hne⟩, hrest⟩
        exact ⟨ho, fun hid => absurd hid.symm hne, hrest⟩
      · rintro ⟨ho, hhd, hrest⟩
        refine ⟨⟨ho, fun hid => hhd hid.symm hc⟩, hrest⟩
    · rw [collideStep, if_neg hc]
      constructor
      · rintro ⟨ho, hrest⟩
        exact ⟨ho, fun _ => fun hcc => absurd hcc hc, hrest⟩
      · rintro ⟨ho, _, hrest⟩
        exact ⟨ho, hrest⟩

lemma mem_foldl_collideStep_of_safe (ppos : Vec3) (litter : List Obj) :
    ∀ (scene : List Obj) (o : Obj), o ∈ scene →
      (∀ it ∈ litter, it.id = o.id → ¬ collides ppos it) →
      o ∈ litter.foldl (collideStep ppos) scene := by
  induction litter with
  | nil =>
    intro scene o ho _
    simpa using ho
  | cons it rest ih =>
    intro scene o ho hsafe
    rw [List.forall_mem_cons] at hsafe
    rw [List.foldl_cons]
    refine ih _ o ?_ hsafe.2
    rw [collideStep]
    split
    · rename_i hc
      exact mem_sceneRemove_of_ne ho (fun h => hsafe.1 h.symm hc)
    · exact ho

/-! Theorems for the claims. -/

/-- C1: for every world radius, direction and delta, after
`CompoundObject.move` the primary position `(x, y, z)` satisfies
`x^2 + y^2 + z^2 = radius^2` in real arithmetic, whatever the previous
position was. -/
theorem move_puts_primary_on_sphere (dir : Direction) (delta radius : ℝ) (p : Vec3) :
    (move dir delta radius p).x ^ 2 + (move dir delta radius p).y ^ 2 +
      (move dir delta radius p).z ^ 2 = radius ^ 2 := by
  cases dir <;> simpa [move] using applyRotation_on_sphere radius _ _

/-- C4: `CompoundObject.move` computes exactly the closed-form trigonometric
update described by the claim: the code's `move` agrees with the
claim-transcribed `moveSpec` on every direction, delta, radius and previous
position. -/
theorem move_eq_moveSpec (dir : Direction) (delta radius : ℝ) (p : Vec3) :
    move dir delta radius p = moveSpec dir delta radius p := by
  cases dir <;>
    · refine Vec3.ext ?_ ?_ ?_ <;>
      simp only [move, moveSpec, applyRotation, thetaOf, phiOf, clampUnit] <;> ring

/-- C10: the argument passed to `Math.acos` in `CompoundObject.move` is
clamped into `[-1, 1]`, so for every primary position and every nonzero
radius the computed `phi` is a well-defined value in `[0, pi]`, even when
`|y|` exceeds the radius. -/
theorem acos_argument_clamped (p : Vec3) (radius : ℝ) (hr : radius ≠ 0) :
    -1 ≤ clampUnit (p.y / radius) ∧ clampUnit (p.y / radius) ≤ 1 ∧
      0 ≤ phiOf p radius ∧ phiOf p radius ≤ Real.pi := by
  refine ⟨le_max_left _ _, ?_, Real.arccos_nonneg _, Real.arccos_le_pi _⟩
  exact max_le (by norm_num) (min_le_left _ _)

/-- Witness for C10 at the concrete position `(0, 2, 0)` and radius `1`,
where `y / radius = 2` is out of range and gets clamped. -/
theorem acos_argument_clamped_witness :
    (1 : ℝ) ≠ 0 ∧
      (-1 ≤ clampUnit ((Vec3.mk 0 2 0).y / 1) ∧ clampUnit ((Vec3.mk 0 2 0).y / 1) ≤ 1 ∧
        0 ≤ phiOf (Vec3.mk 0 2 0) 1 ∧ phiOf (Vec3.mk 0 2 0) 1 ≤ Real.pi) :=
  ⟨by norm_num, acos_argument_clamped (Vec3.mk 0 2 0) 1 (by norm_num)⟩

/-- C6: the translation-based move changes exactly one coordinate of the
group position: UP adds `__MOVE_STEP * delta` to `y`, DOWN subtracts it from
`y`, LEFT subtracts it from `x`, RIGHT adds it to `x`, and the other two
coordinates are unchanged in every case. -/
theorem moveGroup_translates_one_axis (delta : ℝ) (p : Vec3) :
    moveGroup .UP delta p = ⟨p.x, p.y + MOVE_STEP20 * delta, p.z⟩ ∧
      moveGroup .DOWN delta p = ⟨p.x, p.y - MOVE_STEP20 * delta, p.z⟩ ∧
      moveGroup .LEFT delta p = ⟨p.x - MOVE_STEP20 * delta, p.y, p.z⟩ ∧
      moveGroup .RIGHT delta p = ⟨p.x + MOVE_STEP20 * delta, p.y, p.z⟩ :=
  ⟨rfl, rfl, rfl, rfl⟩

/-- C8: for a positive world radius and a primary position on the sphere of
that radius, `move(LEFT, delta, radius)` followed by
`move(RIGHT, delta, radius)` with the same delta restores the exact original
primary position in real arithmetic, and likewise RIGHT then LEFT. -/
theorem move_left_right_roundtrip (delta radius : ℝ) (p : Vec3) (hr : 0 < radius)
    (hp : p.x ^ 2 + p.y ^ 2 + p.z ^ 2 = radius ^ 2) :
    move .RIGHT delta radius (move .LEFT delta radius p) = p ∧
      move .LEFT delta radius (move .RIGHT delta radius p) = p := by
  constructor
  · rw [move_LEFT_eq_yaw, move_RIGHT_eq_yaw]
    exact yaw_neg_yaw hr hp (MOVE_STEP * delta)
  · rw [move_RIGHT_eq_yaw, move_LEFT_eq_yaw]
    have h := yaw_neg_yaw hr hp (-(MOVE_STEP * delta))
    rwa [neg_neg] at h

/-- Witness for C8 at radius `1`, position `(0, 0, 1)` on the unit sphere,
and delta `1`. -/
theorem move_left_right_roundtrip_witness :
    (0 : ℝ) < 1 ∧
      ((Vec3.mk 0 0 1).x ^ 2 + (Vec3.mk 0 0 1).y ^ 2 + (Vec3.mk 0 0 1).z ^ 2 = (1 : ℝ) ^ 2) ∧
      (move .RIGHT 1 1 (move .LEFT 1 1 (Vec3.mk 0 0 1)) = Vec3.mk 0 0 1 ∧
        move .LEFT 1 1 (move .RIGHT 1 1 (Vec3.mk 0 0 1)) = Vec3.mk 0 0 1) :=
  ⟨by norm_num, by norm_num,
    move_left_right_roundtrip 1 1 (Vec3.mk 0 0 1) (by norm_num) (by norm_num)⟩

/-- C2: a debris item of the litter that is also in the scene is removed by
`#checkCollision` exactly when the Euclidean distance between its position
and the compound primary's position is at most its own `raioCol` plus the
compound's `raioCol` of `5.52`; every item strictly farther away stays in
the scene. (The identities in the scene and in the litter are distinct, as
`#buildScene` guarantees.) -/
theorem checkCollision_removes_iff (st : SimState) (item : Obj)
    (hsc : (st.scene.map Obj.id).Nodup) (hlit : (st.litter.map Obj.id).Nodup)
    (hmem : item ∈ st.litter) (hin : item ∈ st.scene) :
    item ∉ (checkCollision st).scene ↔
      euclideanDist item.pos st.primaryPos ≤ item.raioCol + compound_raioCol := by
  rw [checkCollision_scene,
    mem_foldl_collideStep st.primaryPos st.litter st.scene hsc item]
  constructor
  · intro hno
    have hnsafe : ¬ ∀ it ∈ st.litter, it.id = item.id → ¬ collides st.primaryPos it :=
      fun hsafe => hno ⟨hin, hsafe⟩
    push_neg at hnsafe
    obtain ⟨it, hit, hid, hc⟩ := hnsafe
    have heq : it = item := List.inj_on_of_nodup_map hlit hit hmem hid
    rw [heq] at hc
    rw [collides, collisionThreshold, collisionDistance_eq_euclideanDist] at hc
    exact hc
  · intro hd
    rintro ⟨_, hsafe⟩
    refine hsafe item hmem rfl ?_
    rw [collides, collisionThreshold, collisionDistance_eq_euclideanDist]
    exact hd

/-- Witness for C2: a single debris item of radius `1` sitting exactly at
the primary's position, where the distance `0` is within the threshold. -/
theorem checkCollision_removes_iff_witness :
    ((demoState.scene.map Obj.id).Nodup ∧ (demoState.litter.map Obj.id).Nodup ∧
        demoItem ∈ demoState.litter ∧ demoItem ∈ demoState.scene) ∧
      (demoItem ∉ (checkCollision demoState).scene ↔
        euclideanDist demoItem.pos demoState.primaryPos ≤
          demoItem.raioCol + compound_raioCol) :=
  ⟨⟨by simp [demoState, demoItem], by simp [demoState, demoItem],
      by simp [demoState], by simp [demoState]⟩,
    checkCollision_removes_iff demoState demoItem (by simp [demoState, demoItem])
      (by simp [demoState, demoItem]) (by simp [demoState]) (by simp [demoState])⟩

/-- C3 counterexample: in the concrete scan over a cube and a cylinder
debris item carrying the `raioCol` values `#buildScene` computes, the two
comparisons of the scan use two different thresholds, refuting the claim
that the threshold is a single value shared by every debris object in the
scan. -/
theorem scan_threshold_not_single_value :
    (checkCollision demoScanState).trace =
        [Event.compare 0 (collisionThreshold demoCube),
          Event.compare 1 (collisionThreshold demoCylinder)] ∧
      collisionThreshold demoCube ≠ collisionThreshold demoCylinder := by
  constructor
  · rw [checkCollision_trace]
    simp only [demoScanState, List.map_cons, List.map_nil, List.nil_append]
    rw [show demoCube.id = 0 from rfl, show demoCylinder.id = 1 from rfl]
  · rw [collisionThreshold, collisionThreshold]
    intro h
    have hr : Real.sqrt 3 / 2 * 3 = Real.sqrt ((3 / 2 : ℝ) ^ 2 + (3 / 2) ^ 2) := by
      have h' : demoCube.raioCol = demoCylinder.raioCol := by linarith
      simpa [demoCube, demoCylinder] using h'
    have h3 : Real.sqrt 3 ^ 2 = 3 := Real.sq_sqrt (by norm_num)
    have h92 : Real.sqrt ((3 / 2 : ℝ) ^ 2 + (3 / 2) ^ 2) ^ 2 = (3 / 2 : ℝ) ^ 2 + (3 / 2) ^ 2 :=
      Real.sq_sqrt (by positivity)
    have hL : (Real.sqrt 3 / 2 * 3) ^ 2 = (3 / 2 : ℝ) ^ 2 + (3 / 2) ^ 2 := by
      rw [hr]
      exact h92
    nlinarith [h3, hL]

/-- C3 (amended): the collision detection is a linear scan that compares
each debris item of the litter list exactly once, in list order; the
distance threshold compared against a debris item is that item's own
`raioCol` plus the compound's fixed radius `5.52`, so it varies per item
instead of being one value shared by the whole scan. -/
theorem scan_is_linear_with_per_item_threshold (st : SimState) :
    (checkCollision st).trace =
        st.trace ++ st.litter.map (fun it => Event.compare it.id (collisionThreshold it)) ∧
      ∀ it : Obj, collisionThreshold it = it.raioCol + 5.52 :=
  ⟨checkCollision_trace st, fun _ => rfl⟩

/-- C5: every frame, `#update` performs the collision scan over the whole
debris list before the key input is processed and before the scene is
rendered: the frame trace is exactly one `compare` per litter item, then
the key processing, the `lookAt`, and only then the render. -/
theorem frame_scans_before_keys_and_render (keyProc : ℝ → SimState → SimState)
    (delta : ℝ) (st : SimState)
    (hkp : ∀ (d : ℝ) (s : SimState), (keyProc d s).trace = s.trace) :
    (animate keyProc delta st).trace =
      st.trace ++ st.litter.map (fun it => Event.compare it.id (collisionThreshold it)) ++
        [Event.keyProcess, Event.lookAt, Event.render] := by
  simp only [animate, update, display]
  rw [hkp]
  dsimp only
  rw [checkCollision_trace]
  simp [List.append_assoc]

/-- Witness for C5 with the identity key processor, delta `0`, and the
concrete one-item state `demoState`. -/
theorem frame_scans_before_keys_and_render_witness :
    (∀ (d : ℝ) (s : SimState), ((fun (_ : ℝ) (s : SimState) => s) d s).trace = s.trace) ∧
      (animate (fun _ s => s) 0 demoState).trace =
        [Event.compare 1 ((1 : ℝ) + 5.52), Event.keyProcess, Event.lookAt, Event.render] := by
  refine ⟨fun _ _ => rfl, ?_⟩
  have h := frame_scans_before_keys_and_render (fun _ s => s) 0 demoState (fun _ _ => rfl)
  simpa [demoState, demoItem, collisionThreshold, compound_raioCol] using h

/-- C7: `#checkCollision` only ever removes debris from the scene: the
resulting scene is a sublist of the old one (so no object is added or has
its position modified), every surviving object is one of the old scene's
objects unchanged, every scene object whose identity is not that of a
colliding litter item — in particular the earth and the spaceship compound,
which are not litter, and every debris beyond its threshold — remains, and
the compound primary's position is untouched. -/
theorem checkCollision_only_removes (st : SimState) :
    (checkCollision st).scene.Sublist st.scene ∧
      (∀ o ∈ (checkCollision st).scene, o ∈ st.scene) ∧
      (∀ o ∈ st.scene,
        (∀ it ∈ st.litter, it.id = o.id → ¬ collides st.primaryPos it) →
          o ∈ (checkCollision st).scene) ∧
      (checkCollision st).primaryPos = st.primaryPos := by
  rw [checkCollision_scene, checkCollision_primaryPos]
  refine ⟨foldl_collideStep_sublist st.primaryPos st.litter st.scene, ?_, ?_, rfl⟩
  · intro o ho
    exact (foldl_collideStep_sublist st.primaryPos st.litter st.scene).subset ho
  · intro o ho hsafe
    exact mem_foldl_collideStep_of_safe st.primaryPos st.litter st.scene o ho hsafe

/-- C9: `#checkCollision` never modifies the `#litter` array: the `slice`
call returns a copy without mutating, so after the check the litter list is
the very same list, with the same length and elements, and a second run of
the check examines the full original litter again. -/
theorem checkCollision_litter_unmodified (st : SimState) :
    (checkCollision st).litter = st.litter ∧
      (checkCollision st).litter.length = st.litter.length ∧
      (checkCollision (checkCollision st)).trace =
        (checkCollision st).trace ++
          st.litter.map (fun it => Event.compare it.id (collisionThreshold it)) := by
  refine ⟨checkCollision_litter st, by rw [checkCollision_litter], ?_⟩
  rw [checkCollision_trace (checkCollision st), checkCollision_litter st]

end SpaceDemo
